import Mathlib

/-!
Verification of the phone-number normalization, CSV lead ingestion and
campaign call-dispatch logic of the apex backend
(src/services/vapi-outbound-service.ts), as a shallow embedding in Lean.

Strings are modelled with the Lean `String` type; all string operations
used by the embedding are defined over the underlying character list so
that concrete instances evaluate by `decide` / `rfl`.
-/

namespace Apex

/-- The cleaned digit string: `phone.replace(/\D/g, '')` removes every
non-digit character (vapi-outbound-service.ts line 691). -/
def cleanDigits (phone : String) : String :=
  ⟨phone.data.filter Char.isDigit⟩

/-- `s.startsWith(p)` on strings, via list prefix testing. -/
def strStartsWith (s p : String) : Bool :=
  p.data.isPrefixOf s.data

/-- `s.substring(n)` (drop the first `n` characters). -/
def strDrop (s : String) (n : Nat) : String :=
  ⟨s.data.drop n⟩

/-- The tail of formatPhoneNumber after the `cleaned.length >= 10` block
(vapi-outbound-service.ts lines 719-736): the Malta 8-digit branch, the
10-digit UK default, the 11-digits-leading-0 UK branch and the final
fallback that prefixes `+` when absent.  In the source the length-8 test
is a nested `if` whose untaken inner branch falls through; the combined
conjunction below is equivalent. -/
def formatRest (cleaned : String) : String :=
  if cleaned.length = 8 ∧ (strStartsWith cleaned "9" = true ∨ strStartsWith cleaned "7" = true) then
    "+356" ++ cleaned
  else if cleaned.length = 10 then
    "+44" ++ cleaned
  else if cleaned.length = 11 ∧ strStartsWith cleaned "0" = true then
    "+44" ++ strDrop cleaned 1
  else if strStartsWith cleaned "+" = true then cleaned
  else "+" ++ cleaned

/-- Body of formatPhoneNumber after `cleaned` has been computed
(vapi-outbound-service.ts lines 693-736).  Inside the outer
`cleaned.length >= 10` block every branch of the country-code chain
returns `+` + cleaned, and the chain closes with a catch-all
`else if (cleaned.length >= 10)`; if no branch were taken control would
fall through to the code modelled by `formatRest`. -/
def formatCore (cleaned : String) : String :=
  if 10 ≤ cleaned.length then
    if strStartsWith cleaned "1" = true ∧ cleaned.length = 11 then "+" ++ cleaned
    else if strStartsWith cleaned "44" = true ∧ 11 ≤ cleaned.length then "+" ++ cleaned
    else if strStartsWith cleaned "356" = true ∧ cleaned.length = 11 then "+" ++ cleaned
    else if strStartsWith cleaned "39" = true ∧ 10 ≤ cleaned.length then "+" ++ cleaned
    else if strStartsWith cleaned "33" = true ∧ 10 ≤ cleaned.length then "+" ++ cleaned
    else if strStartsWith cleaned "49" = true ∧ 11 ≤ cleaned.length then "+" ++ cleaned
    else if 10 ≤ cleaned.length then "+" ++ cleaned
    else formatRest cleaned
  else formatRest cleaned

/-- formatPhoneNumber (vapi-outbound-service.ts lines 686-737).
`if (!phone) return ''` is the empty-string guard (the argument is a
string, so falsy means empty). -/
def formatPhoneNumber (phone : String) : String :=
  if phone = "" then "" else formatCore (cleanDigits phone)

/-! ### CSV lead ingestion (uploadLeadsFromCSV, lines 273-400)

A parsed CSV row is an association list from column names to cell texts
(the csv parser yields one string value per header column).  A JS field
access `row.k` is `rget row k`; a JS truthiness test on a string-or-absent
value is `truthy`; the JS `a || b` alias chains are `jsOr`. -/

abbrev Row : Type := List (String × String)

def rget (row : Row) (key : String) : Option String :=
  (List.find? (fun kv => kv.1 == key) row).map (fun kv => kv.2)

/-- JS truthiness of an optional string: absent and empty are falsy. -/
def truthy : Option String → Bool
  | none => false
  | some s => !(s == "")

/-- JS `a || b` on optional strings. -/
def jsOr (a b : Option String) : Option String :=
  if truthy a then a else b

/-- `row.phone || row.number || row.telephone || row.phoneNumber ||
row.Phone || row.Number` (line 291). -/
def phoneFieldOf (row : Row) : Option String :=
  jsOr (jsOr (jsOr (jsOr (jsOr (rget row "phone") (rget row "number"))
    (rget row "telephone")) (rget row "phoneNumber")) (rget row "Phone"))
    (rget row "Number")

/-- `row.name || row.Name` (line 292). -/
def nameFieldOf (row : Row) : Option String :=
  jsOr (rget row "name") (rget row "Name")

/-- `row.firstName || row.first_name || row.FirstName || row.firstname`
(line 293). -/
def firstNameFieldOf (row : Row) : Option String :=
  jsOr (jsOr (jsOr (rget row "firstName") (rget row "first_name"))
    (rget row "FirstName")) (rget row "firstname")

/-- `row.lastName || row.last_name || row.LastName || row.lastname`
(line 294). -/
def lastNameFieldOf (row : Row) : Option String :=
  jsOr (jsOr (jsOr (rget row "lastName") (rget row "last_name"))
    (rget row "LastName")) (rget row "lastname")

/-- Whitespace characters removed by the JS string `trim` and matched by
the `\s` class in the phone-cleaning regex (space, tab, line feed,
carriage return, vertical tab, form feed; the rarer unicode space code
points are not modelled). -/
def isJsSpace (c : Char) : Bool :=
  c == ' ' || c == '\t' || c == '\n' || c == '\r' ||
    c == Char.ofNat 11 || c == Char.ofNat 12

/-- JS `s.trim()`. -/
def jsTrim (s : String) : String :=
  ⟨((s.data.dropWhile isJsSpace).reverse.dropWhile isJsSpace).reverse⟩

/-- JS `s.split(' ')` on the character list: split at every single space,
keeping empty segments, always at least one segment. -/
def splitAux : List Char → List Char → List (List Char)
  | [], acc => [acc.reverse]
  | c :: cs, acc =>
    if c == ' ' then acc.reverse :: splitAux cs []
    else splitAux cs (c :: acc)

/-- The name-splitting step (lines 300-304): when no firstName and no
lastName alias is truthy but the name field is, the trimmed name is split
on spaces; `nameParts[0]` becomes the first name and
`nameParts.slice(1).join(' ') || ''` the last name.  Otherwise the alias
values pass through unchanged. -/
def deriveNames (first last name : Option String) :
    Option String × Option String :=
  if truthy first = false ∧ truthy last = false ∧ truthy name = true then
    let parts := splitAux (jsTrim (name.getD "")).data []
    (some ⟨parts.headD []⟩, some ⟨List.intercalate [' '] (parts.drop 1)⟩)
  else (first, last)

/-- `phoneField.replace(/[\s\-\(\)]/g, '')` (line 313). -/
def stripPhoneChars (s : String) : String :=
  ⟨s.data.filter (fun c => !(isJsSpace c || c == '-' || c == '(' || c == ')'))⟩

/-- The loose E.164 test `/^\+?[1-9]\d{1,14}$/` (line 312): an optional
leading plus, one digit 1-9, then between 1 and 14 further digits. -/
def phoneRegexTest (s : String) : Bool :=
  let core := fun (l : List Char) =>
    match l with
    | [] => false
    | c :: ds =>
      ('1' ≤ c && c ≤ '9') && (1 ≤ ds.length && ds.length ≤ 14) &&
        ds.all Char.isDigit
  match s.data with
  | '+' :: rest => core rest
  | l => core l

/-- JS `s.toLowerCase()` on ASCII keys. -/
def lowerStr (s : String) : String :=
  ⟨s.data.map Char.toLower⟩

/-- The column names excluded from custom fields (line 335). -/
def knownKeys : List String :=
  ["firstname", "lastname", "phone", "number", "name", "email", "company",
    "title", "first_name", "last_name", "telephone", "phonenumber",
    "job_title"]

/-- A lead as built by the row handler (lines 320-331). -/
structure Lead where
  firstName : String
  lastName : String
  phone : String
  email : Option String
  company : Option String
  title : Option String
  status : String
  callAttempts : Nat
  customFields : List (String × String)
deriving DecidableEq, Repr

/-- One iteration of the csv `data` handler (lines 287-345): resolve the
alias columns, derive the name parts, validate the required fields, test
the phone regex, and either build the lead or record the per-line error
message.  When the row passes validation with a truthy first name but the
last name is still absent (no lastName alias and no name column), the JS
`lastName.trim()` throws a TypeError on undefined, which the per-row
catch turns into a `Line N:` message; the runtime message text is
modelled without its quote characters.  The local const bindings of the
handler (phoneField, nameField, firstName, lastName, cleanPhone) are
inlined; the handler is pure, so this preserves its value. -/
def parseRow (lineNumber : Nat) (row : Row) : Except String Lead :=
  if truthy (deriveNames (firstNameFieldOf row) (lastNameFieldOf row)
        (nameFieldOf row)).1 = false ∨
      truthy (phoneFieldOf row) = false then
    .error ("Line " ++ toString lineNumber ++
      ": Missing required fields (name and phone)")
  else if phoneRegexTest
      (stripPhoneChars ((phoneFieldOf row).getD "")) = false then
    .error ("Line " ++ toString lineNumber ++ ": Invalid phone number format")
  else
    match (deriveNames (firstNameFieldOf row) (lastNameFieldOf row)
        (nameFieldOf row)).2 with
    | none =>
      .error ("Line " ++ toString lineNumber ++
        ": Cannot read properties of undefined (reading trim)")
    | some lastStr =>
      .ok {
        firstName := jsTrim ((deriveNames (firstNameFieldOf row)
          (lastNameFieldOf row) (nameFieldOf row)).1.getD "")
        lastName := jsTrim lastStr
        phone := formatPhoneNumber (stripPhoneChars ((phoneFieldOf row).getD ""))
        email := (jsOr (rget row "email") (rget row "Email")).map jsTrim
        company := (jsOr (rget row "company") (rget row "Company")).map jsTrim
        title := (jsOr (jsOr (jsOr (rget row "title") (rget row "Title"))
          (rget row "job_title")) (rget row "JobTitle")).map jsTrim
        status := "pending"
        callAttempts := 0
        customFields :=
          row.filter (fun kv => !(knownKeys.contains (lowerStr kv.1)))
      }

/-- The csv stream loop (lines 286-345): rows are handled in order with a
line counter starting at 1; each row either appends a lead to `leads` or
a message to `errors`. -/
def processRowsAux : Nat → List Row → List Lead × List String
  | _, [] => ([], [])
  | n, r :: rs =>
    let rest := processRowsAux (n + 1) rs
    match parseRow n r with
    | .ok lead => (lead :: rest.1, rest.2)
    | .error e => (rest.1, e :: rest.2)

def processRows (rows : List Row) : List Lead × List String :=
  processRowsAux 1 rows

/-- A persisted row of the leads table as written by the upsert
(lines 355-369). -/
structure DbLead where
  organization_id : String
  campaign_id : String
  first_name : String
  last_name : String
  phone : String
  email : Option String
  company : Option String
  job_title : Option String
  status : String
  call_status : String
  call_attempts : Nat
deriving DecidableEq, Repr

def toDbLead (orgId campaignId : String) (l : Lead) : DbLead :=
  { organization_id := orgId
    campaign_id := campaignId
    first_name := l.firstName
    last_name := l.lastName
    phone := l.phone
    email := l.email
    company := l.company
    job_title := l.title
    status := "pending"
    call_status := "pending"
    call_attempts := 0 }

/-- The conflict key of the upsert: `onConflict: 'organization_id,phone'`
(line 372). -/
def sameKey (a b : DbLead) : Bool :=
  a.organization_id == b.organization_id && a.phone == b.phone

/-- Upsert of one row into the leads table, as configured at the call
site (lines 352-376): `onConflict: 'organization_id,phone'` with
`ignoreDuplicates: false`, so a row whose key already exists replaces the
stored record and any other row is appended.  The database itself is an
external service; its conflict behaviour is modelled from these
parameters. -/
def upsertOne (store : List DbLead) (r : DbLead) : List DbLead :=
  if store.any (fun s => sameKey s r) then
    store.map (fun s => if sameKey s r then r else s)
  else store ++ [r]

structure UploadResult where
  success : Nat
  failed : Nat
  errors : List String
  store : List DbLead
deriving Repr

/-- uploadLeadsFromCSV (lines 273-400) on already-parsed rows: process
every row, upsert the parsed leads, and resolve with the upserted count
as `success`, `errors.length` as `failed`, and the collected messages
(the upsert with `.select()` returns one row per input lead, so the
resolved `success` is the number of parsed leads). -/
def uploadLeadsFromCSV (orgId campaignId : String) (rows : List Row)
    (store : List DbLead) : UploadResult :=
  let parsed := processRows rows
  let dbRows := parsed.1.map (toDbLead orgId campaignId)
  { success := dbRows.length
    failed := parsed.2.length
    errors := parsed.2
    store := dbRows.foldl upsertOne store }

/-- The error text of a row, when the row failed. -/
def errorText : Except String Lead → Option String
  | .error e => some e
  | .ok _ => none

/-! ### Spec-side definitions used to state the claims -/

/-- Modelled from the claim text: the part of a name before its first
space (the whole name when it has no space). -/
def beforeFirstSpace (s : String) : String :=
  ⟨s.data.takeWhile (fun c => !(c == ' '))⟩

/-- Modelled from the claim text: everything after the first space of a
name (the empty string when it has no space). -/
def afterFirstSpace (s : String) : String :=
  ⟨(s.data.dropWhile (fun c => !(c == ' '))).drop 1⟩

/-- Modelled from the claim text: the first present (non-empty) value of
an alias list. -/
def firstTruthy : List (Option String) → Option String
  | [] => none
  | x :: xs => if truthy x then x else firstTruthy xs

/-! ### Campaign call processing (processCampaignCalls, lines 629-680) -/

/-- A lead row as read by the pending-leads query. -/
structure CampaignLead where
  id : String
  campaign_id : String
  call_status : String
  phone : String
deriving DecidableEq, Repr

/-- The pending-leads fetch (lines 636-641): rows of the campaign with
`call_status = 'pending'`, limited to 5. -/
def fetchPendingLeads (table : List CampaignLead) (campaignId : String) :
    List CampaignLead :=
  (table.filter
    (fun l => l.campaign_id == campaignId && l.call_status == "pending")).take 5

/-- Observable events of the call loop. -/
inductive CallEvent where
  | call (leadId : String)
  | wait (ms : Nat)
  | logError (leadId : String)
deriving DecidableEq, Repr

def isWait2000 : CallEvent → Bool
  | .wait 2000 => true
  | _ => false

def callIdOf : CallEvent → Option String
  | .call i => some i
  | _ => none

/-- The call loop (lines 629-680) as an event trace.  `callFails` is the
oracle for whether `makeCall` throws on a given lead.  Each fetched lead
is attempted once, in order; on success the loop awaits a fixed 2000 ms
delay, on failure the catch logs the error and the loop moves on.  An
empty fetch returns early; a missing campaign row throws before any call
(both give an empty trace). -/
def processCampaignCalls (table : List CampaignLead) (campaignId : String)
    (campaignFound : Bool) (callFails : String → Bool) : List CallEvent :=
  let leads := fetchPendingLeads table campaignId
  if leads.isEmpty then []
  else if !campaignFound then []
  else
    leads.flatMap (fun l =>
      CallEvent.call l.id ::
        (if callFails l.id then [CallEvent.logError l.id]
         else [CallEvent.wait 2000]))

/-! ### Concrete rows and leads used by witnesses and counterexamples -/

/-- A row with only a name column and a phone column. -/
def rowNameOnly : Row :=
  [("name", "John Smith"), ("phone", "+447911123456")]

/-- A row whose phone fails the regex. -/
def rowBadPhone : Row :=
  [("name", "Bob"), ("phone", "abc")]

/-- A valid row with split name columns. -/
def rowGood : Row :=
  [("firstName", "Ann"), ("lastName", "Lee"), ("phone", "+35699123456")]

/-- A row with a first name and a phone but no last name column and no
name column: it passes the validation checks yet the row handler throws
on `lastName.trim()`. -/
def rowNoLast : Row :=
  [("firstName", "John"), ("phone", "+447911123456")]

/-- A stored lead sharing its (organization, phone) key with the upsert
of `rowGood`. -/
def oldDbLead : DbLead :=
  { organization_id := "org-1"
    campaign_id := "camp-0"
    first_name := "Old"
    last_name := "Name"
    phone := "+35699123456"
    email := none
    company := none
    job_title := none
    status := "pending"
    call_status := "completed"
    call_attempts := 3 }

/-- An incoming record with the same (organization, phone) key as
`oldDbLead` but fresh field values. -/
def newDbLead : DbLead :=
  { organization_id := "org-1"
    campaign_id := "camp-1"
    first_name := "Ann"
    last_name := "Lee"
    phone := "+35699123456"
    email := none
    company := none
    job_title := none
    status := "pending"
    call_status := "pending"
    call_attempts := 0 }

/-- A pending lead of campaign camp-1. -/
def cexLead : CampaignLead :=
  { id := "lead-1"
    campaign_id := "camp-1"
    call_status := "pending"
    phone := "+35699123456" }

/-! ### Helper lemmas about the string embedding -/

theorem str_ext {a b : String} (h : a.data = b.data) : a = b := by
  cases a; cases b; exact congrArg String.mk h

theorem cleanDigits_data (s : String) :
    (cleanDigits s).data = s.data.filter Char.isDigit := rfl

theorem mem_cleanDigits_isDigit {s : String} {c : Char}
    (h : c ∈ (cleanDigits s).data) : c.isDigit = true :=
  (List.mem_filter.mp h).2

theorem append_ne_empty {a : String} (b : String) (ha : a ≠ "") : a ++ b ≠ "" := by
  intro h
  apply ha
  apply str_ext
  have hd := congrArg String.data h
  rw [String.data_append] at hd
  exact (List.append_eq_nil.mp hd).1

theorem format_eq_core {phone : String} (h : phone ≠ "") :
    formatPhoneNumber phone = formatCore (cleanDigits phone) := by
  rw [formatPhoneNumber, if_neg h]

theorem formatCore_ge10 (c : String) (h : 10 ≤ c.length) :
    formatCore c = "+" ++ c := by
  unfold formatCore
  rw [if_pos h]
  split_ifs <;> first | rfl | omega

theorem format_ge10 (phone : String) (h : 10 ≤ (cleanDigits phone).length) :
    formatPhoneNumber phone = "+" ++ cleanDigits phone := by
  have hne : phone ≠ "" := by
    intro he; rw [he] at h; exact absurd h (by decide)
  rw [format_eq_core hne]
  exact formatCore_ge10 _ h

theorem formatCore_malta (c : String) (h8 : c.length = 8)
    (h97 : strStartsWith c "9" = true ∨ strStartsWith c "7" = true) :
    formatCore c = "+356" ++ c := by
  have hlt : ¬ 10 ≤ c.length := by omega
  unfold formatCore formatRest
  rw [if_neg hlt, if_pos ⟨h8, h97⟩]

theorem formatCore_fallback (c : String) (h10 : ¬ 10 ≤ c.length)
    (h8 : ¬ (c.length = 8 ∧ (strStartsWith c "9" = true ∨ strStartsWith c "7" = true)))
    (hplus : strStartsWith c "+" = false) :
    formatCore c = "+" ++ c := by
  unfold formatCore formatRest
  rw [if_neg h10, if_neg h8]
  split_ifs with h1 h2 h3 <;> first | rfl | omega | simp [hplus] at *

theorem startsWith_of_startsWith_left {a p : String} (b : String)
    (h : strStartsWith a p = true) : strStartsWith (a ++ b) p = true := by
  rw [strStartsWith, List.isPrefixOf_iff_prefix] at h ⊢
  rw [String.data_append]
  exact h.trans (List.prefix_append _ _)

theorem cleanDigits_plus_of_digits (c : String)
    (hdig : ∀ ch ∈ c.data, ch.isDigit = true) :
    cleanDigits ("+" ++ c) = c := by
  apply str_ext
  rw [cleanDigits_data, String.data_append, List.filter_append,
    List.filter_eq_self.mpr hdig]
  rfl

theorem cleanDigits_plus356_of_digits (c : String)
    (hdig : ∀ ch ∈ c.data, ch.isDigit = true) :
    cleanDigits ("+356" ++ c) = "356" ++ c := by
  apply str_ext
  rw [cleanDigits_data, String.data_append, List.filter_append,
    List.filter_eq_self.mpr hdig, String.data_append]
  rfl

theorem not_startsWith_plus_of_digits (c : String)
    (hdig : ∀ ch ∈ c.data, ch.isDigit = true) :
    strStartsWith c "+" = false := by
  cases hcd : c.data with
  | nil => rw [strStartsWith, hcd]; decide
  | cons ch t =>
    have hch : ch.isDigit = true := hdig ch (by rw [hcd]; exact List.mem_cons_self _ _)
    rw [strStartsWith, hcd]
    show List.isPrefixOf ['+'] (ch :: t) = false
    have hne : ('+' == ch) = false := by
      apply beq_eq_false_iff_ne.mpr
      intro he
      rw [← he] at hch
      exact absurd hch (by decide)
    simp [List.isPrefixOf, hne]

theorem formatCore_idem (c : String)
    (hdig : ∀ ch ∈ c.data, ch.isDigit = true) :
    formatPhoneNumber (formatCore c) = formatCore c := by
  by_cases h10 : 10 ≤ c.length
  · rw [formatCore_ge10 c h10,
      format_eq_core (append_ne_empty c (by decide)),
      cleanDigits_plus_of_digits c hdig,
      formatCore_ge10 c h10]
  · by_cases h8 : c.length = 8 ∧ (strStartsWith c "9" = true ∨ strStartsWith c "7" = true)
    · rw [formatCore_malta c h8.1 h8.2,
        format_eq_core (append_ne_empty c (by decide)),
        cleanDigits_plus356_of_digits c hdig,
        formatCore_ge10 ("356" ++ c) (by
          rw [String.length_append]
          have h3 : ("356" : String).length = 3 := rfl
          omega)]
      apply str_ext
      simp [String.data_append]
    · have hplus := not_startsWith_plus_of_digits c hdig
      rw [formatCore_fallback c h10 h8 hplus,
        format_eq_core (append_ne_empty c (by decide)),
        cleanDigits_plus_of_digits c hdig,
        formatCore_fallback c h10 h8 hplus]

/-! ### Claims about formatPhoneNumber -/

/-- C1, counterexample: the input 07911123456 cleans to an 11-digit string
starting with 0, yet formatPhoneNumber returns +07911123456 and not
+447911123456: the catch-all `cleaned.length >= 10` branch fires before
the strip-leading-0 branch can be reached. -/
theorem claim_C1_cex :
    (cleanDigits "07911123456").length = 11 ∧
    strStartsWith (cleanDigits "07911123456") "0" = true ∧
    formatPhoneNumber "07911123456" = "+07911123456" ∧
    formatPhoneNumber "07911123456" ≠ "+447911123456" := by
  refine ⟨by decide, by decide, by decide, by decide⟩

/-- C1 (amended): for every input phone string whose cleaned digit string
has exactly 11 digits and starts with 0, formatPhoneNumber returns `+`
followed by the cleaned digit string unchanged (the leading 0 is kept;
the strip-0 / +44 branch of the source is unreachable because the
`cleaned.length >= 10` block returns first). -/
theorem claim_C1 (phone : String)
    (h11 : (cleanDigits phone).length = 11)
    (h0 : strStartsWith (cleanDigits phone) "0" = true) :
    formatPhoneNumber phone = "+" ++ cleanDigits phone :=
  format_ge10 phone (by omega)

/-- Witness for C1 (amended) at the concrete input 07911123456. -/
theorem claim_C1_witness :
    (cleanDigits "07911123456").length = 11 ∧
    strStartsWith (cleanDigits "07911123456") "0" = true ∧
    formatPhoneNumber "07911123456" = "+" ++ cleanDigits "07911123456" :=
  ⟨by decide, by decide, claim_C1 "07911123456" (by decide) (by decide)⟩

/-- C2, counterexample: the input 5551234567 cleans to a 10-digit string
matching none of the recognized country-code shapes (not 44/356/39/33/49,
not a leading 1 at length 11), yet formatPhoneNumber returns +5551234567
and not +445551234567: the `cleaned.length >= 10` catch-all fires before
the 10-digit UK-default branch can be reached. -/
theorem claim_C2_cex :
    (cleanDigits "5551234567").length = 10 ∧
    strStartsWith (cleanDigits "5551234567") "1" = false ∧
    strStartsWith (cleanDigits "5551234567") "44" = false ∧
    strStartsWith (cleanDigits "5551234567") "356" = false ∧
    strStartsWith (cleanDigits "5551234567") "39" = false ∧
    strStartsWith (cleanDigits "5551234567") "33" = false ∧
    strStartsWith (cleanDigits "5551234567") "49" = false ∧
    formatPhoneNumber "5551234567" = "+5551234567" ∧
    formatPhoneNumber "5551234567" ≠ "+445551234567" := by
  refine ⟨by decide, by decide, by decide, by decide, by decide, by decide,
    by decide, by decide, by decide⟩

/-- C2 (amended): for every input phone string whose cleaned digit string
has exactly 10 digits, formatPhoneNumber returns `+` followed by those 10
digits unchanged (never +44 followed by them; the 10-digit UK-default
branch of the source is unreachable). -/
theorem claim_C2 (phone : String)
    (h10 : (cleanDigits phone).length = 10) :
    formatPhoneNumber phone = "+" ++ cleanDigits phone :=
  format_ge10 phone (by omega)

/-- Witness for C2 (amended) at the concrete input 5551234567. -/
theorem claim_C2_witness :
    (cleanDigits "5551234567").length = 10 ∧
    formatPhoneNumber "5551234567" = "+" ++ cleanDigits "5551234567" :=
  ⟨by decide, claim_C2 "5551234567" (by decide)⟩

/-- C3: for every input phone string whose cleaned digit string has at
least 10 digits (covering every branch of the country-code block and its
catch-all), formatPhoneNumber returns `+` followed by the cleaned digit
string unchanged. -/
theorem claim_C3 (phone : String)
    (h : 10 ≤ (cleanDigits phone).length) :
    formatPhoneNumber phone = "+" ++ cleanDigits phone :=
  format_ge10 phone h

/-- Witness for C3 at the concrete input 1-202-555-0123 (US shape,
11 digits with leading 1). -/
theorem claim_C3_witness :
    10 ≤ (cleanDigits "1-202-555-0123").length ∧
    formatPhoneNumber "1-202-555-0123" = "+" ++ cleanDigits "1-202-555-0123" :=
  ⟨by decide, claim_C3 "1-202-555-0123" (by decide)⟩

/-- C4: for every input phone string whose cleaned digit string has
exactly 8 digits and starts with 9 or 7, formatPhoneNumber returns +356
followed by those 8 digits (Malta mobile default). -/
theorem claim_C4 (phone : String)
    (h8 : (cleanDigits phone).length = 8)
    (h97 : strStartsWith (cleanDigits phone) "9" = true ∨
      strStartsWith (cleanDigits phone) "7" = true) :
    formatPhoneNumber phone = "+356" ++ cleanDigits phone := by
  have hne : phone ≠ "" := by
    intro he; rw [he] at h8; exact absurd h8 (by decide)
  rw [format_eq_core hne]
  exact formatCore_malta _ h8 h97

/-- Witness for C4 at the concrete input 99123456. -/
theorem claim_C4_witness :
    (cleanDigits "99123456").length = 8 ∧
    strStartsWith (cleanDigits "99123456") "9" = true ∧
    formatPhoneNumber "99123456" = "+356" ++ cleanDigits "99123456" :=
  ⟨by decide, by decide, claim_C4 "99123456" (by decide) (Or.inl (by decide))⟩

/-- C5: formatPhoneNumber returns the empty string on the empty input,
and on every non-empty input it returns a string that begins with `+`. -/
theorem claim_C5 :
    formatPhoneNumber "" = "" ∧
    ∀ phone : String, phone ≠ "" →
      strStartsWith (formatPhoneNumber phone) "+" = true := by
  refine ⟨rfl, fun phone h => ?_⟩
  rw [format_eq_core h]
  unfold formatCore formatRest
  split_ifs with h1 h2 h3 h4 h5 h6 h7 h8 h9 h10 h11 h12 <;>
    first
      | assumption
      | exact startsWith_of_startsWith_left _ (by decide)

/-- Witness for C5 at the concrete non-empty input hello (which has no
digits at all: the result is the bare `+`). -/
theorem claim_C5_witness :
    strStartsWith (formatPhoneNumber "hello") "+" = true :=
  claim_C5.2 "hello" (by decide)

/-! ### Lemmas about the name splitting and the alias chains -/

theorem splitAux_headD (l acc : List Char) :
    (splitAux l acc).headD [] =
      acc.reverse ++ l.takeWhile (fun c => !(c == ' ')) := by
  induction l generalizing acc with
  | nil => simp [splitAux]
  | cons c cs ih =>
    rw [splitAux]
    split_ifs with h
    · simp [List.takeWhile_cons, h]
    · simp only [ih, List.takeWhile_cons, h]
      simp

theorem splitAux_ne_nil (l acc : List Char) : splitAux l acc ≠ [] := by
  induction l generalizing acc with
  | nil => simp [splitAux]
  | cons c cs ih =>
    rw [splitAux]
    split_ifs <;> simp [ih]

theorem intercalate_splitAux (l acc : List Char) :
    List.intercalate [' '] (splitAux l acc) = acc.reverse ++ l := by
  induction l generalizing acc with
  | nil => simp [splitAux, List.intercalate]
  | cons c cs ih =>
    rw [splitAux]
    split_ifs with h
    · have hcs : List.intercalate [' '] (splitAux cs []) = cs := by
        simpa using ih ([] : List Char)
      cases hsp : splitAux cs [] with
      | nil => exact absurd hsp (splitAux_ne_nil cs [])
      | cons p ps =>
        rw [hsp] at hcs
        have hstep : List.intercalate [' '] (acc.reverse :: p :: ps) =
            acc.reverse ++ [' '] ++ List.intercalate [' '] (p :: ps) := by
          simp [List.intercalate, List.intersperse]
        rw [hstep, hcs, (beq_iff_eq.mp h : c = ' ')]
        simp
    · rw [ih (c :: acc)]
      simp

theorem intercalate_splitAux_drop (l acc : List Char) :
    List.intercalate [' '] ((splitAux l acc).drop 1) =
      (l.dropWhile (fun c => !(c == ' '))).drop 1 := by
  induction l generalizing acc with
  | nil => simp [splitAux, List.intercalate]
  | cons c cs ih =>
    rw [splitAux]
    split_ifs with h
    · simp only [List.drop_succ_cons, List.drop_zero]
      rw [intercalate_splitAux cs ([] : List Char)]
      simp [List.dropWhile_cons, h]
    · rw [ih (c :: acc)]
      simp [List.dropWhile_cons, h]

theorem truthy_jsOr (a b : Option String) :
    truthy (jsOr a b) = (truthy a || truthy b) := by
  rw [jsOr]
  split_ifs with h
  · simp [h]
  · rw [Bool.not_eq_true] at h
    simp [h]

/-- C6: for a CSV row with no truthy firstName or lastName alias but a
truthy name column, the derived first name is the text of the trimmed
name before its first space and the derived last name is everything after
the first space (empty when there is no space); and whenever the phone
alias chain resolves to a truthy value, it is the first truthy value of
phone, number, telephone, phoneNumber, Phone, Number, in that order. -/
theorem claim_C6 (row : Row)
    (hfn : truthy (firstNameFieldOf row) = false)
    (hln : truthy (lastNameFieldOf row) = false)
    (hname : truthy (nameFieldOf row) = true)
    (hphone : truthy (phoneFieldOf row) = true) :
    deriveNames (firstNameFieldOf row) (lastNameFieldOf row) (nameFieldOf row) =
      (some (beforeFirstSpace (jsTrim ((nameFieldOf row).getD ""))),
        some (afterFirstSpace (jsTrim ((nameFieldOf row).getD "")))) ∧
    phoneFieldOf row =
      firstTruthy [rget row "phone", rget row "number", rget row "telephone",
        rget row "phoneNumber", rget row "Phone", rget row "Number"] := by
  constructor
  · rw [deriveNames, if_pos ⟨hfn, hln, hname⟩]
    refine Prod.ext ?_ ?_
    · show some (⟨(splitAux (jsTrim ((nameFieldOf row).getD "")).data []).headD []⟩ : String) = _
      rw [splitAux_headD]
      rfl
    · show some (⟨List.intercalate [' ']
        ((splitAux (jsTrim ((nameFieldOf row).getD "")).data []).drop 1)⟩ : String) = _
      rw [intercalate_splitAux_drop]
      rfl
  · rw [phoneFieldOf] at hphone ⊢
    cases h1 : truthy (rget row "phone") with
    | true => simp [firstTruthy, jsOr, truthy_jsOr, h1]
    | false =>
      cases h2 : truthy (rget row "number") with
      | true => simp [firstTruthy, jsOr, truthy_jsOr, h1, h2]
      | false =>
        cases h3 : truthy (rget row "telephone") with
        | true => simp [firstTruthy, jsOr, truthy_jsOr, h1, h2, h3]
        | false =>
          cases h4 : truthy (rget row "phoneNumber") with
          | true => simp [firstTruthy, jsOr, truthy_jsOr, h1, h2, h3, h4]
          | false =>
            cases h5 : truthy (rget row "Phone") with
            | true => simp [firstTruthy, jsOr, truthy_jsOr, h1, h2, h3, h4, h5]
            | false =>
              simp only [truthy_jsOr, h1, h2, h3, h4, h5] at hphone
              simp at hphone
              simp [firstTruthy, jsOr, truthy_jsOr, h1, h2, h3, h4, h5, hphone]

/-- Witness for C6 at the concrete row
`[(name, John Smith), (phone, +447911123456)]`. -/
theorem claim_C6_witness :
    deriveNames (firstNameFieldOf rowNameOnly) (lastNameFieldOf rowNameOnly)
        (nameFieldOf rowNameOnly) =
      (some (beforeFirstSpace (jsTrim ((nameFieldOf rowNameOnly).getD ""))),
        some (afterFirstSpace (jsTrim ((nameFieldOf rowNameOnly).getD "")))) ∧
    phoneFieldOf rowNameOnly =
      firstTruthy [rget rowNameOnly "phone", rget rowNameOnly "number",
        rget rowNameOnly "telephone", rget rowNameOnly "phoneNumber",
        rget rowNameOnly "Phone", rget rowNameOnly "Number"] :=
  claim_C6 rowNameOnly (by decide) (by decide) (by decide) (by decide)

/-! ### Lemmas about the row loop -/

theorem strStartsWith_append (a b : String) : strStartsWith (a ++ b) a = true := by
  rw [strStartsWith, List.isPrefixOf_iff_prefix, String.data_append]
  exact List.prefix_append _ _

theorem processRowsAux_eq (n : Nat) (rows : List Row) :
    processRowsAux n rows =
      ((List.enumFrom n rows).filterMap (fun p => (parseRow p.1 p.2).toOption),
        (List.enumFrom n rows).filterMap (fun p => errorText (parseRow p.1 p.2))) := by
  induction rows generalizing n with
  | nil => simp [processRowsAux]
  | cons r rs ih =>
    cases hp : parseRow n r with
    | ok lead =>
      simp [processRowsAux, hp, ih (n + 1), List.enumFrom_cons, errorText,
        Except.toOption]
    | error e =>
      simp [processRowsAux, hp, ih (n + 1), List.enumFrom_cons, errorText,
        Except.toOption]

theorem parseRow_error_prefix (n : Nat) (row : Row) (e : String)
    (h : parseRow n row = .error e) :
    strStartsWith e ("Line " ++ toString n ++ ":") = true := by
  rw [parseRow] at h
  split_ifs at h with h1 h2
  · rw [Except.error.injEq] at h
    rw [← h,
      show (": Missing required fields (name and phone)" : String) =
        ":" ++ " Missing required fields (name and phone)" from rfl,
      ← String.append_assoc]
    exact strStartsWith_append _ _
  · rw [Except.error.injEq] at h
    rw [← h,
      show (": Invalid phone number format" : String) =
        ":" ++ " Invalid phone number format" from rfl,
      ← String.append_assoc]
    exact strStartsWith_append _ _
  · split at h
    · rw [Except.error.injEq] at h
      rw [← h,
        show (": Cannot read properties of undefined (reading trim)" : String) =
          ":" ++ " Cannot read properties of undefined (reading trim)" from rfl,
        ← String.append_assoc]
      exact strStartsWith_append _ _
    · simp at h

/-- C7, counterexample: the row `[(firstName, John), (phone, +447911123456)]`
has a truthy firstName alias and a truthy phone whose cleaned value passes
the regex, so under the claim it is a valid row and must be upserted; but
the code throws on `lastName.trim()` (no lastName alias and no name
column), the per-row catch records a Line 1 message, and nothing is
upserted. -/
theorem claim_C7_cex :
    truthy (firstNameFieldOf rowNoLast) = true ∧
    truthy (phoneFieldOf rowNoLast) = true ∧
    phoneRegexTest (stripPhoneChars ((phoneFieldOf rowNoLast).getD "")) = true ∧
    (uploadLeadsFromCSV "org-1" "camp-1" [rowNoLast] []).store = [] ∧
    (uploadLeadsFromCSV "org-1" "camp-1" [rowNoLast] []).errors =
      ["Line 1: Cannot read properties of undefined (reading trim)"] := by
  refine ⟨by decide, by decide, by decide, by decide, by decide⟩

/-- C7 (amended): every row that the handler rejects — a missing
resolvable name or phone, a cleaned phone failing the regex, or a row
whose resolved last name is still absent so the handler throws on
`lastName.trim()` — is excluded from the upsert and contributes exactly
one message starting with `Line N:`; the upserted leads are exactly the
successfully parsed rows of the batch (a failing row never fails the
whole batch), the returned success count is their number and the returned
failed count equals the number of collected messages. -/
theorem claim_C7 (orgId campaignId : String) (rows : List Row)
    (store : List DbLead) :
    (uploadLeadsFromCSV orgId campaignId rows store).failed =
      (uploadLeadsFromCSV orgId campaignId rows store).errors.length ∧
    (uploadLeadsFromCSV orgId campaignId rows store).errors =
      (List.enumFrom 1 rows).filterMap (fun p => errorText (parseRow p.1 p.2)) ∧
    (∀ p ∈ List.enumFrom 1 rows, ∀ e, parseRow p.1 p.2 = .error e →
      strStartsWith e ("Line " ++ toString p.1 ++ ":") = true) ∧
    (uploadLeadsFromCSV orgId campaignId rows store).store =
      (((List.enumFrom 1 rows).filterMap
        (fun p => (parseRow p.1 p.2).toOption)).map
          (toDbLead orgId campaignId)).foldl upsertOne store ∧
    (uploadLeadsFromCSV orgId campaignId rows store).success =
      ((List.enumFrom 1 rows).filterMap
        (fun p => (parseRow p.1 p.2).toOption)).length := by
  have hpr := processRowsAux_eq 1 rows
  refine ⟨rfl, ?_, ?_, ?_, ?_⟩
  · show (processRows rows).2 = _
    rw [processRows, hpr]
  · exact fun p _ e he => parseRow_error_prefix p.1 p.2 e he
  · show ((processRows rows).1.map (toDbLead orgId campaignId)).foldl
      upsertOne store = _
    rw [processRows, hpr]
  · show ((processRows rows).1.map (toDbLead orgId campaignId)).length = _
    rw [processRows, hpr, List.length_map]

/-- Witness for C7 (amended) on the concrete batch of one regex-failing
row followed by one valid row. -/
theorem claim_C7_witness :
    (uploadLeadsFromCSV "org-1" "camp-1" [rowBadPhone, rowGood] []).failed =
      (uploadLeadsFromCSV "org-1" "camp-1" [rowBadPhone, rowGood] []).errors.length ∧
    strStartsWith "Line 1: Invalid phone number format" ("Line " ++ toString 1 ++ ":") = true :=
  ⟨(claim_C7 "org-1" "camp-1" [rowBadPhone, rowGood] []).1,
    (claim_C7 "org-1" "camp-1" [rowBadPhone, rowGood] []).2.2.1 (1, rowBadPhone)
      (by decide) "Line 1: Invalid phone number format" (by rfl)⟩

/-- C8: uploadLeadsFromCSV feeds every parsed lead through the
(organization_id, phone)-keyed upsert, and the upsert of a record whose
key already exists in the store replaces the stored record with the new
one — it is updated, not skipped and not duplicated. -/
theorem claim_C8 (orgId campaignId : String) (rows : List Row)
    (store : List DbLead) (r : DbLead)
    (h : ∃ old ∈ store, sameKey old r = true) :
    (uploadLeadsFromCSV orgId campaignId rows store).store =
      ((processRows rows).1.map (toDbLead orgId campaignId)).foldl
        upsertOne store ∧
    r ∈ upsertOne store r ∧
    (∀ s ∈ upsertOne store r, sameKey s r = true → s = r) ∧
    (upsertOne store r).length = store.length := by
  obtain ⟨old, hm, hk⟩ := h
  have hany : store.any (fun s => sameKey s r) = true :=
    List.any_eq_true.mpr ⟨old, hm, hk⟩
  have hup : upsertOne store r =
      store.map (fun s => if sameKey s r = true then r else s) := by
    rw [upsertOne, if_pos hany]
  refine ⟨rfl, ?_, ?_, ?_⟩
  · rw [hup]
    exact List.mem_map.mpr ⟨old, hm, by rw [if_pos hk]⟩
  · intro s hs hks
    rw [hup] at hs
    obtain ⟨x, hx, hxe⟩ := List.mem_map.mp hs
    by_cases hxk : sameKey x r = true
    · rw [if_pos hxk] at hxe
      exact hxe.symm
    · rw [if_neg hxk] at hxe
      exact absurd (hxe ▸ hks) hxk
  · rw [hup, List.length_map]

/-- Witness for C8: upserting a record keyed like the stored one replaces
it in place, leaving a one-element store holding the new record. -/
theorem claim_C8_witness :
    newDbLead ∈ upsertOne [oldDbLead] newDbLead ∧
    (upsertOne [oldDbLead] newDbLead).length = 1 :=
  ⟨(claim_C8 "org-1" "camp-1" [] [oldDbLead] newDbLead
      ⟨oldDbLead, by decide, by decide⟩).2.1,
    (claim_C8 "org-1" "camp-1" [] [oldDbLead] newDbLead
      ⟨oldDbLead, by decide, by decide⟩).2.2.2⟩

/-! ### Lemmas about the call loop -/

theorem processCampaignCalls_found (table : List CampaignLead)
    (campaignId : String) (callFails : String → Bool) :
    processCampaignCalls table campaignId true callFails =
      (fetchPendingLeads table campaignId).flatMap (fun l =>
        CallEvent.call l.id ::
          (if callFails l.id then [CallEvent.logError l.id]
           else [CallEvent.wait 2000])) := by
  rw [processCampaignCalls]
  cases he : (fetchPendingLeads table campaignId).isEmpty
  · simp [he]
  · simp [he, List.isEmpty_iff.mp he]

theorem calls_of_blocks (callFails : String → Bool) (ls : List CampaignLead) :
    (ls.flatMap (fun l =>
      CallEvent.call l.id ::
        (if callFails l.id then [CallEvent.logError l.id]
         else [CallEvent.wait 2000]))).filterMap callIdOf =
      ls.map (fun l => l.id) := by
  induction ls with
  | nil => rfl
  | cons l t ih =>
    rw [List.flatMap_cons, List.filterMap_append, ih]
    cases hf : callFails l.id <;> simp [callIdOf]

theorem isWait2000_call (i : String) : isWait2000 (CallEvent.call i) = false := rfl

theorem isWait2000_logError (i : String) :
    isWait2000 (CallEvent.logError i) = false := rfl

theorem isWait2000_wait2000 : isWait2000 (CallEvent.wait 2000) = true := rfl

theorem waits_of_blocks (callFails : String → Bool) (ls : List CampaignLead) :
    ((ls.flatMap (fun l =>
      CallEvent.call l.id ::
        (if callFails l.id then [CallEvent.logError l.id]
         else [CallEvent.wait 2000]))).filter isWait2000).length =
      (ls.filter (fun l => !(callFails l.id))).length := by
  induction ls with
  | nil => rfl
  | cons l t ih =>
    rw [List.flatMap_cons, List.filter_append, List.length_append, ih]
    cases hf : callFails l.id
    · simp [List.filter_cons, isWait2000_call, isWait2000_wait2000, hf]
      omega
    · simp [List.filter_cons, isWait2000_call, isWait2000_logError, hf]

/-- C9, counterexample: with a single pending lead whose call throws, the
trace contains the call attempt and the logged error but no 2-second wait
at all — the delay is skipped after a failing call, so the loop does not
wait after each call. -/
theorem claim_C9_cex :
    processCampaignCalls [cexLead] "camp-1" true (fun _ => true) =
      [CallEvent.call "lead-1", CallEvent.logError "lead-1"] ∧
    CallEvent.wait 2000 ∉
      processCampaignCalls [cexLead] "camp-1" true (fun _ => true) := by
  refine ⟨by decide, by decide⟩

/-- C9 (amended): on each invocation processCampaignCalls fetches at most
5 pending leads of the campaign and attempts exactly one call per fetched
lead, in fetch order, whatever the success of the other calls (so a
failing lead neither stops the remaining calls nor is retried within the
invocation); a fixed 2000 ms wait follows each successful call — but not
a failing one, whose error is logged instead. -/
theorem claim_C9 (table : List CampaignLead) (campaignId : String)
    (callFails : String → Bool) :
    (fetchPendingLeads table campaignId).length ≤ 5 ∧
    (processCampaignCalls table campaignId true callFails).filterMap callIdOf =
      (fetchPendingLeads table campaignId).map (fun l => l.id) ∧
    ((processCampaignCalls table campaignId true callFails).filter
        isWait2000).length =
      ((fetchPendingLeads table campaignId).filter
        (fun l => !(callFails l.id))).length ∧
    ∀ l ∈ fetchPendingLeads table campaignId, callFails l.id = true →
      CallEvent.logError l.id ∈
        processCampaignCalls table campaignId true callFails := by
  refine ⟨?_, ?_, ?_, ?_⟩
  · rw [fetchPendingLeads, List.length_take]
    exact min_le_left _ _
  · rw [processCampaignCalls_found]
    exact calls_of_blocks callFails _
  · rw [processCampaignCalls_found]
    exact waits_of_blocks callFails _
  · intro l hl hf
    rw [processCampaignCalls_found]
    exact List.mem_flatMap.mpr ⟨l, hl, by rw [hf]; simp⟩

/-- Witness for C9 (amended): the failing lead of the one-lead campaign
has its error logged in the trace. -/
theorem claim_C9_witness :
    CallEvent.logError "lead-1" ∈
      processCampaignCalls [cexLead] "camp-1" true (fun _ => true) :=
  (claim_C9 [cexLead] "camp-1" (fun _ => true)).2.2.2 cexLead (by decide) rfl

/-- C10: formatPhoneNumber is idempotent: applying it twice gives the
same result as applying it once, for every input string. -/
theorem claim_C10 (x : String) :
    formatPhoneNumber (formatPhoneNumber x) = formatPhoneNumber x := by
  by_cases hx : x = ""
  · rw [hx]; rfl
  · rw [format_eq_core hx]
    exact formatCore_idem (cleanDigits x) (fun ch h => mem_cleanDigits_isDigit h)

end Apex
